import Mathlib

/-!
Verification of the paint reconciliation engine (package `drawer`,
files `drawer.go` and `api.go`).

The engine's shared state and operations are shallowly embedded below:
pure computations of the Go code become Lean functions, the channel /
goroutine structure becomes explicit state passing (lists stand for the
buffered channels `waited` and `unused`, a `Nat → Bool` function for the
`uncert` flag array) and, where a claim is about interleaving, a step
relation or a phase/tick model.  Machine integers are modelled as `Nat`
(all quantities involved are small and non-negative in the Go code);
fallible operations return `Option`.
-/

namespace Paint

/-- Constants from `drawer.go` lines 22-30. -/
def INTERVAL : Nat := 30

/-- Number of dispatch workers (`drawer.go` line 24). -/
def WORKER_COUNT : Nat := 4

/-- Capacity of the `unused` (credential pool) channel (`drawer.go` line 25). -/
def UNUSED_BUF : Nat := 50

/-- Length of the `uncert` pending-flag array (`drawer.go` line 27). -/
def UNCERT_LEN : Nat := 40000

/-- Reconciliation period in seconds, `60 * 5` (`drawer.go` line 28). -/
def UPDATE_INTERVAL : Nat := 60 * 5

/-- Capacity of the `waited` (pending queue) channel (`drawer.go` line 29). -/
def WAIT_BUF : Nat := 40000

/-- Nanoseconds per second, Go's `time.Second`. -/
def NS_PER_SEC : Nat := 1000000000

/-- A decoded target image: bounds `Dx`, `Dy` and the pixel query `At`,
which in Go returns 16-bit colour channels via `color.RGBA()`
(the alpha channel is discarded by every caller and is omitted). -/
structure Img where
  dx : Nat
  dy : Nat
  at16 : Nat → Nat → Nat × Nat × Nat

/-- The 24-bit RGB value the Go code computes from a pixel:
`r, g, b, _ := img.At(x, y).RGBA(); r, g, b = r>>8, g>>8, b>>8;
int((r << 16) | (g << 8) | b)` — `drawer.go` lines 110-112, 181-189
and 245-247 all use this exact computation. -/
def rgbAt (im : Img) (x y : Nat) : Nat :=
  let c := im.at16 x y
  (((c.1 >>> 8) <<< 16) ||| ((c.2.1 >>> 8) <<< 8)) ||| (c.2.2 >>> 8)

/-- The engine's shared mutable state: `uncert` pending flags,
the `waited` queue of pending offsets (head = next to be received)
and the `unused` pool of available credential ids
(`ImageDrawer` fields, `drawer.go` lines 36-41). -/
structure EngState where
  uncert : Nat → Bool
  waited : List Nat
  unused : List Nat

/-- One execution of the closure `put(i, j)` of `check`
(`drawer.go` lines 243-257): compute `offset := i*y + j`, the expected
colour with the white substitution, and if it differs from the board
pixel at `(X+i, Y+j)` while `uncert[offset]` is unset, set the flag and
append the offset to the `waited` queue.  `board` is the point query
`api.GetPixel`. -/
def checkPut (im : Img) (X Y : Nat) (board : Nat → Nat → Nat)
    (s : EngState) (i j : Nat) : EngState :=
  let y := im.dy
  let offset := i * y + j
  let exp0 := rgbAt im i j
  let exp := if exp0 = 0xFFFFFF then 0xAAAAAA else exp0
  if exp ≠ board (X + i) (Y + j) ∧ s.uncert offset = false then
    { s with uncert := fun o => if o = offset then true else s.uncert o,
             waited := s.waited ++ [offset] }
  else s

/-- The full diff scan of one `check` cycle (`drawer.go` lines 260-263):
`for offset := 0; offset < x*y; offset++ { i, j := offset/y, offset%y; put(i, j) }`. -/
def checkScan (im : Img) (X Y : Nat) (board : Nat → Nat → Nat)
    (s : EngState) : EngState :=
  (List.range (im.dx * im.dy)).foldl
    (fun s off => checkPut im X Y board s (off / im.dy) (off % im.dy)) s

/-- A paint request as issued by `api.SetPixel(x, y, c, uid, token)`. -/
structure PaintReq where
  x : Nat
  y : Nat
  color : Nat
  uid : Nat
  tok : String
deriving DecidableEq

/-- Observable events of one worker loop iteration, in program order. -/
inductive Ev
  /-- `v, ok = <-draw.waited` (`drawer.go` line 169). -/
  | dequeued (v : Nat)
  /-- `draw.uncert[v] = false` (`drawer.go` line 178). -/
  | cleared (v : Nat)
  /-- `uid := <-draw.unused` (`drawer.go` line 179). -/
  | acquired (uid : Nat)
  /-- `ok = draw.api.SetPixel(...)` with its outcome (`drawer.go` line 194). -/
  | painted (req : PaintReq) (ok : Bool)
  /-- Success path: a detached goroutine sleeps `delayNs` nanoseconds and
  then sends `uid` back on `unused` (`drawer.go` lines 199-206). -/
  | releaseDelayed (uid : Nat) (delayNs : Nat)
  /-- Failure path: `draw.unused <- uid` immediately (`drawer.go` line 208). -/
  | releaseNow (uid : Nat)
deriving DecidableEq

/-- The cooldown delay of a successful paint in nanoseconds:
`time.Duration(INTERVAL)*time.Second - time.Second/15`
(`drawer.go` line 204); `time.Second/15` is Go integer division. -/
def cooldownDelayNs : Nat := INTERVAL * NS_PER_SEC - NS_PER_SEC / 15

/-- One iteration of the worker loop `work` (`drawer.go` lines 167-210),
starting at a successful receive from `waited`.  Returns `none` when the
iteration would block forever in this sequential model (empty queue or
empty pool; the interleaved blocking behaviour is modelled separately by
`workTick`).  `paintOk` is the outcome of the external `SetPixel` call.
The iteration, in source order: receive `v`, clear `uncert[v]`, receive
`uid` from `unused`, decode `x, y := v/ImY, v%ImY`, look the token up in
the cache (`continue` when absent, leaving `uid` unreturned), compute the
expected colour with the white substitution, issue the paint, and release
the credential — delayed by `cooldownDelayNs` on success, immediately on
failure. -/
def workIter (im : Img) (X Y : Nat) (cache : Nat → Option String)
    (s : EngState) (paintOk : Bool) : Option (EngState × List Ev) :=
  match s.waited with
  | [] => none
  | v :: restW =>
    let uncert1 : Nat → Bool := fun o => if o = v then false else s.uncert o
    match s.unused with
    | [] => none
    | uid :: restU =>
      let ImY := im.dy
      let x := v / ImY
      let y := v % ImY
      match cache uid with
      | none =>
        some ({ uncert := uncert1, waited := restW, unused := restU },
          [.dequeued v, .cleared v, .acquired uid])
      | some tok =>
        let exp0 := rgbAt im x y
        let exp := if exp0 = 0xFFFFFF then 0xAAAAAA else exp0
        let req : PaintReq := ⟨x + X, y + Y, exp, uid, tok⟩
        if paintOk then
          some ({ uncert := uncert1, waited := restW, unused := restU },
            [.dequeued v, .cleared v, .acquired uid, .painted req true,
             .releaseDelayed uid cooldownDelayNs])
        else
          some ({ uncert := uncert1, waited := restW, unused := restU ++ [uid] },
            [.dequeued v, .cleared v, .acquired uid, .painted req false,
             .releaseNow uid])

/-- Whether a credential released at `releaseTime` (nanoseconds) is back
in the available pool at time `t`: after a successful paint the detached
goroutine sleeps `cooldownDelayNs` before returning it (`drawer.go`
lines 199-206); after a failure it is returned at once (line 208). -/
def credAvailableAt (releaseTime : Nat) (success : Bool) (t : Nat) : Bool :=
  if success then decide (releaseTime + cooldownDelayNs ≤ t)
  else decide (releaseTime ≤ t)

/-- The `ImageDrawer` lifecycle state (`drawer.go` lines 32-44):
`running` stands for `cancelFunc != nil`, `img` is `nil` before the
first successful decode. -/
structure Drawer where
  imgPath : String
  img : Option Img
  X : Nat
  Y : Nat
  uncert : Nat → Bool
  waited : List Nat
  unused : List Nat
  running : Bool

/-- `Reset` (`drawer.go` lines 60-79): cancel the session if one is
active, zero every `uncert` flag, replace `waited` and `unused` with
fresh empty channels, then send every key of `api.cache` on `unused`.
`cacheKeys` is the key set of the token cache in Go map iteration
order. -/
def Reset (d : Drawer) (cacheKeys : List Nat) : Drawer :=
  { d with running := false,
           uncert := fun _ => false,
           waited := [],
           unused := cacheKeys }

/-- Errors `SetImage` can return. -/
inductive DrawerErr
  /-- `os.Open` failed (`drawer.go` line 84). -/
  | openErr
  /-- `image.Decode` failed (`drawer.go` line 95). -/
  | decodeErr
  /-- `&DrawerError{"Too Large !!!"}` (`drawer.go` line 100). -/
  | tooLarge
deriving DecidableEq

/-- `SetImage` (`drawer.go` lines 82-103): open the file (returning the
error on failure, before any state change), `Reset`, record `ImgPath`,
decode into `draw.img` (returning the decode error with the state already
reset), and only then compare the new image's bounds against 200,
returning the size error after `draw.img` has been replaced.
`openOk`/`decoded` stand for the outcomes of the two external calls. -/
def SetImage (d : Drawer) (cacheKeys : List Nat) (openOk : Bool)
    (decoded : Option Img) (path : String) : Drawer × Option DrawerErr :=
  if openOk then
    let d1 : Drawer := { Reset d cacheKeys with imgPath := path }
    match decoded with
    | none => (d1, some .decodeErr)
    | some im =>
      let d2 : Drawer := { d1 with img := some im }
      if 200 < im.dx ∨ 200 < im.dy then (d2, some .tooLarge) else (d2, none)
  else (d, some .openErr)

/-- `WorkStatus` (`drawer.go` lines 115-127): `-1` when `cancelFunc` is
`nil`, else `0` when `len(waited) < 2`, else `-2` when the token cache is
empty, else `rem * INTERVAL / len(cache)` (non-negative integer
division). `cacheLen` is `len(draw.api.cache)`. -/
def WorkStatus (d : Drawer) (cacheLen : Nat) : Int :=
  if d.running = false then -1
  else if d.waited.length < 2 then 0
  else if cacheLen = 0 then -2
  else ((d.waited.length * INTERVAL) / cacheLen : Nat)

/-- Offset encoding used by the reconciliation scan:
`offset := i*y + j` with `y = img.Bounds().Dy()` (`drawer.go` line 244). -/
def encodeOffset (h i j : Nat) : Nat := i * h + j

/-- Offset decoding used by the workers:
`x, y := v/ImY, v%ImY` with `ImY = img.Bounds().Dy()` (`drawer.go` line 180). -/
def decodeOffset (h v : Nat) : Nat × Nat := (v / h, v % h)

/-! ### A step relation for the pending-flag discipline (claim C2)

`PState` adds to the flag array and queue the multiset of offsets that
have been received by some worker whose `draw.uncert[v] = false`
statement has not executed yet (the window between `drawer.go` lines 169
and 178).  The three atomic actions on this shared state are transcribed
from the source; `diff` abstracts the mismatch test of line 252
(`exp != draw.api.GetPixel(draw.X+i, draw.Y+j)`). -/

structure PState where
  uncert : Nat → Bool
  waited : List Nat
  held : List Nat

/-- Atomic steps of the reconciliation loop and the workers on the
pending state. -/
inductive PStep (diff : Nat → Bool) : PState → PState → Prop
  /-- `check`'s `put` on a mismatching, unflagged offset: set the flag,
  then send the offset (`drawer.go` lines 252-255).  The guard
  `s.uncert off = false` is the `!draw.uncert[offset]` conjunct. -/
  | enqueue (s : PState) (off : Nat) (hdiff : diff off = true)
      (hflag : s.uncert off = false) :
      PStep diff s
        { uncert := fun o => if o = off then true else s.uncert o,
          waited := s.waited ++ [off],
          held := s.held }
  /-- A worker's receive `v, ok = <-draw.waited` (`drawer.go` line 169):
  the offset leaves the queue and is held, flag untouched. -/
  | dequeue (s : PState) (off : Nat) (rest : List Nat)
      (hq : s.waited = off :: rest) :
      PStep diff s { uncert := s.uncert, waited := rest, held := off :: s.held }
  /-- The worker's `draw.uncert[v] = false` (`drawer.go` line 178). -/
  | clearFlag (s : PState) (off : Nat) (hh : off ∈ s.held) :
      PStep diff s
        { uncert := fun o => if o = off then false else s.uncert o,
          waited := s.waited,
          held := s.held.erase off }

/-- States reachable from `s` by pending-state steps. -/
abbrev PReach (diff : Nat → Bool) : PState → PState → Prop :=
  Relation.ReflTransGen (PStep diff)

/-- The pending state just after `Reset`/`Start`: all flags clear,
fresh empty queue, no worker holding anything. -/
def pInit : PState := { uncert := fun _ => false, waited := [], held := [] }

/-- The invariant of claim C2: the flag is set exactly for offsets in the
queue or held un-cleared by a worker, and no offset occurs twice across
those two places. -/
def PendingInv (s : PState) : Prop :=
  (∀ off, s.uncert off = true ↔ (off ∈ s.waited ∨ off ∈ s.held)) ∧
    (s.waited ++ s.held).Nodup

/-! ### Phase models of the blocking structure (claim C8)

One tick is one second.  `checkTick` transcribes the control flow of
`check` (`drawer.go` lines 224-267): a `select` on a one-second timer and
`ctx.Done()` at the top of the loop, the instantaneous update-and-scan
body, and the plain `time.Sleep(waitTime * time.Second)` of line 266,
which has no cancellation alternative.  When both `select` branches are
ready Go picks one at random; the model takes the `Done` branch, which
only strengthens any claim about cancellation being observed. -/

inductive CheckPhase
  /-- Blocked in the `select` of lines 233-238. -/
  | selectWait
  /-- Executing `api.Update()` and the diff scan. -/
  | scan
  /-- Inside `time.Sleep(waitTime * time.Second)` (line 266), `n` seconds
  of the sleep remaining. -/
  | sleeping (n : Nat)
  /-- Returned (after `ctx.Done()` fired in the `select`). -/
  | exited
deriving DecidableEq

/-- One-second tick of the `check` loop under a cancellation flag. -/
def checkTick (cancelled : Bool) : CheckPhase → CheckPhase
  | .selectWait => if cancelled then .exited else .scan
  | .scan => .sleeping UPDATE_INTERVAL
  | .sleeping (n + 1) => .sleeping n
  | .sleeping 0 => .selectWait
  | .exited => .exited

/-- Phases of a worker's loop (`drawer.go` lines 167-210). -/
inductive WorkPhase
  /-- Blocked in the `select` on `waited` / `ctx.Done()` (lines 168-173). -/
  | dequeueWait
  /-- Blocked on `uid := <-draw.unused` (line 179) — a plain receive with
  no cancellation alternative. -/
  | acquireWait
  /-- Executing the rest of the iteration. -/
  | processing
  /-- Returned. -/
  | exited
deriving DecidableEq

/-- One tick of a worker under a cancellation flag, given whether the
queue and the pool currently have an item available. -/
def workTick (cancelled queueNonempty poolNonempty : Bool) :
    WorkPhase → WorkPhase
  | .dequeueWait =>
      if cancelled then .exited
      else if queueNonempty then .acquireWait
      else .dequeueWait
  | .acquireWait => if poolNonempty then .processing else .acquireWait
  | .processing => .dequeueWait
  | .exited => .exited

/-- A 1×1 all-black image, used as a previously loaded target. -/
def imgSmallEx : Img := ⟨1, 1, fun _ _ => (0, 0, 0)⟩

/-- A 201×1 image, wider than the 200 limit. -/
def imgBigEx : Img := ⟨201, 1, fun _ _ => (0, 0, 0)⟩

/-- A drawer that has already loaded `imgSmallEx`. -/
def d0ex : Drawer := ⟨"old.png", some imgSmallEx, 0, 0, fun _ => false, [], [], true⟩

/-- A running drawer with an empty pending queue. -/
def dRunEx : Drawer := ⟨"", none, 0, 0, fun _ => false, [], [], true⟩

/-- A 1×2 image: pure white at `(0, 0)`, black at `(0, 1)`
(16-bit channels, as `color.RGBA()` returns them). -/
def wImgEx : Img :=
  ⟨1, 2, fun x y =>
    if x = 0 ∧ y = 1 then (0, 0, 0) else (0xFFFF, 0xFFFF, 0xFFFF)⟩

/-- A board showing the placeholder `0xAAAAAA` at `(0, 0)` and black
elsewhere. -/
def wBoardEx : Nat → Nat → Nat :=
  fun x y => if x = 0 ∧ y = 0 then 0xAAAAAA else 0

/-- A token cache answering every id with token `"t"`. -/
def wCacheEx : Nat → Option String := fun _ => some "t"

/-- Worker state holding pending offset 0 and credential 7. -/
def wsAEx : EngState := ⟨fun _ => false, [0], [7]⟩

/-- Worker state holding pending offset 1 and credential 8. -/
def wsBEx : EngState := ⟨fun _ => false, [1], [8]⟩

/-- The empty engine state. -/
def scEx : EngState := ⟨fun _ => false, [], []⟩

/-- Result of the worker iteration on `wsAEx` with a successful paint. -/
def wOutA : EngState × List Ev :=
  (workIter wImgEx 0 0 wCacheEx wsAEx true).getD (scEx, [])

/-- Result of the worker iteration on `wsBEx` with a failed paint. -/
def wOutB : EngState × List Ev :=
  (workIter wImgEx 0 0 wCacheEx wsBEx false).getD (scEx, [])

/-!
## Theorems
-/

/-- C10: the offset encoding `(i, j) ↦ i*H + j` of the reconciliation
scan and the decoding `v ↦ (v / H, v mod H)` of the workers are mutually
inverse on `0 ≤ v < W*H` resp. `i < W, j < H` whenever `H ≥ 1`, so a
worker paints exactly the pixel coordinate at which the scan detected
the mismatch. -/
theorem offset_encode_decode_inverse (w h v i j : Nat) (hpos : 1 ≤ h)
    (_hv : v < w * h) (_hi : i < w) (hj : j < h) :
    encodeOffset h (decodeOffset h v).1 (decodeOffset h v).2 = v ∧
    decodeOffset h (encodeOffset h i j) = (i, j) := by
  constructor
  · show v / h * h + v % h = v
    rw [Nat.mul_comm]
    exact Nat.div_add_mod v h
  · show (((i * h + j) / h), ((i * h + j) % h)) = (i, j)
    rw [Nat.mul_comm i h, Nat.mul_add_div hpos, Nat.mul_add_mod,
      Nat.div_eq_of_lt hj, Nat.mod_eq_of_lt hj, Nat.add_zero]

/-- Witness for C10 at `W = 3`, `H = 2`, `v = 5`, `(i, j) = (2, 1)`. -/
theorem offset_encode_decode_inverse_witness :
    encodeOffset 2 (decodeOffset 2 5).1 (decodeOffset 2 5).2 = 5 ∧
    decodeOffset 2 (encodeOffset 2 2 1) = (2, 1) :=
  offset_encode_decode_inverse 3 2 5 2 1 (by decide) (by decide)
    (by decide) (by decide)

/-- C7: after `Reset`, every pending flag is cleared, the waiting queue
is empty, and the available credential pool is exactly the list of
currently known cache keys — duplicate-free (Go map keys are distinct)
and with no leftover cooldown state. -/
theorem reset_state (d : Drawer) (cacheKeys : List Nat) (off uid : Nat)
    (hnd : cacheKeys.Nodup) :
    (Reset d cacheKeys).uncert off = false ∧
    (Reset d cacheKeys).waited = [] ∧
    (Reset d cacheKeys).unused = cacheKeys ∧
    (Reset d cacheKeys).unused.Nodup ∧
    ((uid ∈ (Reset d cacheKeys).unused) ↔ uid ∈ cacheKeys) ∧
    (Reset d cacheKeys).running = false := by
  refine ⟨rfl, rfl, rfl, hnd, Iff.rfl, rfl⟩

/-- Witness for C7 with a two-credential cache. -/
theorem reset_state_witness :
    (Reset d0ex [7, 9]).uncert 3 = false ∧
    (Reset d0ex [7, 9]).waited = [] ∧
    (Reset d0ex [7, 9]).unused = [7, 9] ∧
    (Reset d0ex [7, 9]).unused.Nodup ∧
    ((9 ∈ (Reset d0ex [7, 9]).unused) ↔ 9 ∈ [7, 9]) ∧
    (Reset d0ex [7, 9]).running = false :=
  reset_state d0ex [7, 9] 3 9 (by decide)

/-- C3 counterexample: loading a 201-pixel-wide image into a drawer that
currently holds a 1×1 target returns the size-limit error, but the
oversized image has already replaced the target: the image in effect
after the rejected call has width 201, not the previous width 1. -/
theorem setImage_replaces_before_size_check_cex :
    (SetImage d0ex [] true (some imgBigEx) "big.png").2 = some DrawerErr.tooLarge ∧
    ((SetImage d0ex [] true (some imgBigEx) "big.png").1.img.map Img.dx) = some 201 ∧
    (d0ex.img.map Img.dx) = some 1 :=
  ⟨rfl, rfl, rfl⟩

/-- C3 amended: for every image wider or taller than 200, `SetImage`
returns the size-limit error, but only after the decoded image has
replaced the current target, so the rejected image (not the previous
one) is the target in effect after the call. -/
theorem setImage_size_error_after_replacement (d : Drawer)
    (cacheKeys : List Nat) (im : Img) (path : String)
    (hbig : 200 < im.dx ∨ 200 < im.dy) :
    (SetImage d cacheKeys true (some im) path).2 = some DrawerErr.tooLarge ∧
    (SetImage d cacheKeys true (some im) path).1.img = some im := by
  simp only [SetImage, if_pos hbig, if_pos rfl]
  exact ⟨rfl, rfl⟩

/-- Witness for the amended C3 at the 201×1 image. -/
theorem setImage_size_error_after_replacement_witness :
    (SetImage d0ex [] true (some imgBigEx) "big.png").2 = some DrawerErr.tooLarge ∧
    (SetImage d0ex [] true (some imgBigEx) "big.png").1.img = some imgBigEx :=
  setImage_size_error_after_replacement d0ex [] imgBigEx "big.png" (by decide)

/-- C4 counterexample: with a session running, an empty credential pool
and fewer than 2 pending offsets, `WorkStatus` returns `0` (Idle), not
`-2` (NoCredentials) as the claim requires. -/
theorem workStatus_idle_before_noCredentials_cex :
    WorkStatus dRunEx 0 = 0 ∧ WorkStatus dRunEx 0 ≠ -2 :=
  ⟨rfl, by decide⟩

/-- C4 amended: `WorkStatus` returns NotRunning (`-1`) when no session
is active; otherwise the Idle check (`< 2` pending) comes first, so Idle
(`0`) is returned whenever fewer than 2 offsets are pending, even with
an empty pool; NoCredentials (`-2`) only when at least 2 offsets are
pending and the pool has zero identities; otherwise the estimate
`pendingCount * INTERVAL / poolSize`. -/
theorem workStatus_case_order (d dI dN dE : Drawer)
    (cl clI clN clE : Nat)
    (hnr : d.running = false)
    (hIr : dI.running = true) (hIl : dI.waited.length < 2)
    (hNr : dN.running = true) (hNl : 2 ≤ dN.waited.length) (hNc : clN = 0)
    (hEr : dE.running = true) (hEl : 2 ≤ dE.waited.length) (hEc : 0 < clE) :
    WorkStatus d cl = -1 ∧
    WorkStatus dI clI = 0 ∧
    WorkStatus dN clN = -2 ∧
    WorkStatus dE clE = ((dE.waited.length * INTERVAL) / clE : Nat) := by
  refine ⟨?_, ?_, ?_, ?_⟩
  · simp [WorkStatus, hnr]
  · simp [WorkStatus, hIr, hIl]
  · simp [WorkStatus, hNr, hNc]
    omega
  · simp [WorkStatus, hEr]
    omega

/-- Witness for the amended C4: not running; running with 0 pending and
empty pool (Idle); running with 2 pending and empty pool
(NoCredentials); running with 2 pending and one credential. -/
theorem workStatus_case_order_witness :
    WorkStatus { dRunEx with running := false } 5 = -1 ∧
    WorkStatus dRunEx 0 = 0 ∧
    WorkStatus { dRunEx with waited := [3, 4] } 0 = -2 ∧
    WorkStatus { dRunEx with waited := [3, 4] } 1 =
      (([3, 4].length * INTERVAL) / 1 : Nat) :=
  workStatus_case_order { dRunEx with running := false } dRunEx
    { dRunEx with waited := [3, 4] } { dRunEx with waited := [3, 4] }
    5 0 0 1 rfl rfl (by decide) rfl (by decide) rfl rfl (by decide)
    (by decide)

/-- C5: a credential released by a worker after a successful paint is
released through a detached timer of exactly
`INTERVAL * NS_PER_SEC - NS_PER_SEC / 15` nanoseconds (`INTERVAL`
seconds minus the `time.Second/15` safety margin) and is absent from the
pool when the iteration ends, and `credAvailableAt` stays `false` for
every instant earlier than release time plus that delay; a credential
released after a failed paint is appended to the pool in the same
iteration and `credAvailableAt` is `true` already at the release
instant. -/
theorem cooldown_release_policy (im : Img) (X Y : Nat)
    (cache : Nat → Option String) (s : EngState)
    (v : Nat) (restW : List Nat) (uid : Nat) (restU : List Nat)
    (tok : String) (s1 : EngState) (evs1 : List Ev)
    (s0 : EngState) (evs0 : List Ev) (rt t : Nat)
    (hw : s.waited = v :: restW) (hu : s.unused = uid :: restU)
    (hc : cache uid = some tok)
    (hrun1 : workIter im X Y cache s true = some (s1, evs1))
    (hrun0 : workIter im X Y cache s false = some (s0, evs0))
    (ht : t < rt + (INTERVAL * NS_PER_SEC - NS_PER_SEC / 15)) :
    Ev.releaseDelayed uid cooldownDelayNs ∈ evs1 ∧
    s1.unused = restU ∧
    cooldownDelayNs = INTERVAL * NS_PER_SEC - NS_PER_SEC / 15 ∧
    credAvailableAt rt true t = false ∧
    credAvailableAt rt false rt = true ∧
    Ev.releaseNow uid ∈ evs0 ∧
    s0.unused = restU ++ [uid] := by
  obtain ⟨unc, w, u⟩ := s
  simp only at hw hu
  subst hw
  subst hu
  simp only [workIter, hc, if_pos rfl] at hrun1
  simp only [workIter, hc, if_neg Bool.false_ne_true] at hrun0
  obtain ⟨h1s, h1e⟩ := Prod.mk.injEq .. ▸ Option.some.injEq .. ▸ hrun1
  obtain ⟨h0s, h0e⟩ := Prod.mk.injEq .. ▸ Option.some.injEq .. ▸ hrun0
  subst h1s
  subst h1e
  subst h0s
  subst h0e
  refine ⟨by simp, rfl, rfl, ?_, ?_, by simp, rfl⟩
  · have hlt : ¬(rt + (INTERVAL * NS_PER_SEC - NS_PER_SEC / 15) ≤ t) := by omega
    simp [credAvailableAt, cooldownDelayNs, hlt]
  · simp [credAvailableAt]

/-- Witness for C5 on a 1×1 image, one queued offset, one credential. -/
theorem cooldown_release_policy_witness :
    Ev.releaseDelayed 7 cooldownDelayNs ∈
      ((workIter imgSmallEx 0 0 (fun _ => some "t")
        ⟨fun _ => false, [0], [7]⟩ true).getD (⟨fun _ => false, [], []⟩, [])).2 ∧
    ((workIter imgSmallEx 0 0 (fun _ => some "t")
        ⟨fun _ => false, [0], [7]⟩ true).getD (⟨fun _ => false, [], []⟩, [])).1.unused = [] ∧
    cooldownDelayNs = INTERVAL * NS_PER_SEC - NS_PER_SEC / 15 ∧
    credAvailableAt 0 true 0 = false ∧
    credAvailableAt 0 false 0 = true ∧
    Ev.releaseNow 7 ∈
      ((workIter imgSmallEx 0 0 (fun _ => some "t")
        ⟨fun _ => false, [0], [7]⟩ false).getD (⟨fun _ => false, [], []⟩, [])).2 ∧
    ((workIter imgSmallEx 0 0 (fun _ => some "t")
        ⟨fun _ => false, [0], [7]⟩ false).getD (⟨fun _ => false, [], []⟩, [])).1.unused = [] ++ [7] :=
  cooldown_release_policy imgSmallEx 0 0 (fun _ => some "t")
    ⟨fun _ => false, [0], [7]⟩ 0 [] 7 [] "t" _ _ _ _ 0 0
    rfl rfl rfl rfl rfl (by decide)

/-- Every successful worker iteration that reaches the paint call issues
it at `(v / dy + X, v % dy + Y)` with the white-substituted colour of
the target pixel. -/
lemma workIter_paint_color (im : Img) (X Y : Nat)
    (cache : Nat → Option String) (s : EngState) (v : Nat)
    (restW : List Nat) (uid : Nat) (restU : List Nat) (tok : String)
    (paintOk : Bool) (s1 : EngState) (evs : List Ev)
    (hw : s.waited = v :: restW) (hu : s.unused = uid :: restU)
    (hc : cache uid = some tok)
    (hrun : workIter im X Y cache s paintOk = some (s1, evs)) :
    Ev.painted ⟨v / im.dy + X, v % im.dy + Y,
      (if rgbAt im (v / im.dy) (v % im.dy) = 0xFFFFFF then 0xAAAAAA
       else rgbAt im (v / im.dy) (v % im.dy)), uid, tok⟩ paintOk ∈ evs := by
  obtain ⟨unc, w, u⟩ := s
  simp only at hw hu
  subst hw
  subst hu
  rcases paintOk with _ | _
  · simp only [workIter, hc, if_neg Bool.false_ne_true] at hrun
    simp only [Option.some.injEq, Prod.mk.injEq] at hrun
    obtain ⟨h1, h2⟩ := hrun
    subst h2
    simp
  · simp only [workIter, hc, eq_self_iff_true, if_true,
      Option.some.injEq, Prod.mk.injEq] at hrun
    obtain ⟨h1, h2⟩ := hrun
    subst h2
    simp

/-- C6: the pending flag of a dequeued offset is cleared at dequeue
time — `cleared v` is the event immediately following `dequeued v`,
before the paint is attempted — and the worker never puts anything back
on the queue, so a failed paint leaves the offset unqueued until the
next reconciliation scan. -/
theorem clear_at_dequeue_no_reenqueue (im : Img) (X Y : Nat)
    (cache : Nat → Option String) (s : EngState) (v : Nat)
    (restW : List Nat) (paintOk : Bool) (s1 : EngState) (evs : List Ev)
    (hw : s.waited = v :: restW)
    (hrun : workIter im X Y cache s paintOk = some (s1, evs)) :
    evs.take 2 = [Ev.dequeued v, Ev.cleared v] ∧
    s1.uncert v = false ∧
    s1.waited = restW := by
  obtain ⟨unc, w, u⟩ := s
  simp only at hw
  subst hw
  rcases u with _ | ⟨uid, restU⟩
  · simp [workIter] at hrun
  · rcases hc : cache uid with _ | tok
    · simp only [workIter, hc] at hrun
      simp only [Option.some.injEq, Prod.mk.injEq] at hrun
      obtain ⟨h1, h2⟩ := hrun
      subst h1
      subst h2
      exact ⟨rfl, by simp, rfl⟩
    · rcases paintOk with _ | _
      · simp only [workIter, hc, if_neg Bool.false_ne_true] at hrun
        simp only [Option.some.injEq, Prod.mk.injEq] at hrun
        obtain ⟨h1, h2⟩ := hrun
        subst h1
        subst h2
        exact ⟨rfl, by simp, rfl⟩
      · simp only [workIter, hc, eq_self_iff_true, if_true,
          Option.some.injEq, Prod.mk.injEq] at hrun
        obtain ⟨h1, h2⟩ := hrun
        subst h1
        subst h2
        exact ⟨rfl, by simp, rfl⟩

/-- Witness for C6 on a failed paint of offset 0. -/
theorem clear_at_dequeue_no_reenqueue_witness :
    (((workIter imgSmallEx 0 0 (fun _ => some "t")
        ⟨fun _ => true, [0], [7]⟩ false).getD (⟨fun _ => false, [], []⟩, [])).2).take 2 =
      [Ev.dequeued 0, Ev.cleared 0] ∧
    ((workIter imgSmallEx 0 0 (fun _ => some "t")
        ⟨fun _ => true, [0], [7]⟩ false).getD (⟨fun _ => false, [], []⟩, [])).1.uncert 0 = false ∧
    ((workIter imgSmallEx 0 0 (fun _ => some "t")
        ⟨fun _ => true, [0], [7]⟩ false).getD (⟨fun _ => false, [], []⟩, [])).1.waited = [] :=
  clear_at_dequeue_no_reenqueue imgSmallEx 0 0 (fun _ => some "t")
    ⟨fun _ => true, [0], [7]⟩ 0 [] false _ _ rfl rfl

/-- C9: when the acquired credential id has no token in the cache, the
worker issues no paint and performs no release: the iteration's trace is
exactly dequeue, clear, acquire, the pool is left at its post-acquire
contents, and the worker moves on to the next dequeue. -/
theorem unknown_credential_skip (im : Img) (X Y : Nat)
    (cache : Nat → Option String) (s : EngState) (v : Nat)
    (restW : List Nat) (uid : Nat) (restU : List Nat) (paintOk : Bool)
    (s1 : EngState) (evs : List Ev)
    (hw : s.waited = v :: restW) (hu : s.unused = uid :: restU)
    (hc : cache uid = none)
    (hrun : workIter im X Y cache s paintOk = some (s1, evs)) :
    s1.unused = restU ∧
    evs = [Ev.dequeued v, Ev.cleared v, Ev.acquired uid] ∧
    s1.waited = restW := by
  obtain ⟨unc, w, u⟩ := s
  simp only at hw hu
  subst hw
  subst hu
  simp only [workIter, hc] at hrun
  simp only [Option.some.injEq, Prod.mk.injEq] at hrun
  obtain ⟨h1, h2⟩ := hrun
  subst h1
  subst h2
  exact ⟨rfl, rfl, rfl⟩

/-- Witness for C9 with an empty cache. -/
theorem unknown_credential_skip_witness :
    ((workIter imgSmallEx 0 0 (fun _ => none)
        ⟨fun _ => false, [0], [7, 8]⟩ true).getD (⟨fun _ => false, [], []⟩, [])).1.unused = [8] ∧
    ((workIter imgSmallEx 0 0 (fun _ => none)
        ⟨fun _ => false, [0], [7, 8]⟩ true).getD (⟨fun _ => false, [], []⟩, [])).2 =
      [Ev.dequeued 0, Ev.cleared 0, Ev.acquired 7] ∧
    ((workIter imgSmallEx 0 0 (fun _ => none)
        ⟨fun _ => false, [0], [7, 8]⟩ true).getD (⟨fun _ => false, [], []⟩, [])).1.waited = [] :=
  unknown_credential_skip imgSmallEx 0 0 (fun _ => none)
    ⟨fun _ => false, [0], [7, 8]⟩ 0 [] 7 [8] true _ _ rfl rfl rfl rfl

/-- C1: a pure-white (`0xFFFFFF`) target pixel is painted as `0xAAAAAA`
(worker run A) and compared against the board as `0xAAAAAA` — a board
pixel already showing the placeholder produces no enqueue (scan C),
while one differing from the placeholder does (scan D) — whereas every
other target colour is painted unchanged (worker run B) and compared
unchanged (scan E). -/
theorem white_substitution (im : Img) (X Y : Nat)
    (board : Nat → Nat → Nat) (cache : Nat → Option String)
    (sA : EngState) (vA : Nat) (rwA : List Nat) (uidA : Nat)
    (ruA : List Nat) (tokA : String) (okA : Bool) (s1A : EngState)
    (evsA : List Ev)
    (sB : EngState) (vB : Nat) (rwB : List Nat) (uidB : Nat)
    (ruB : List Nat) (tokB : String) (okB : Bool) (s1B : EngState)
    (evsB : List Ev)
    (sc : EngState) (i j : Nat) (sc2 : EngState) (i2 j2 : Nat)
    (sc3 : EngState) (i3 j3 : Nat)
    (hwA : sA.waited = vA :: rwA) (huA : sA.unused = uidA :: ruA)
    (hcA : cache uidA = some tokA)
    (hcolA : rgbAt im (vA / im.dy) (vA % im.dy) = 0xFFFFFF)
    (hrunA : workIter im X Y cache sA okA = some (s1A, evsA))
    (hwB : sB.waited = vB :: rwB) (huB : sB.unused = uidB :: ruB)
    (hcB : cache uidB = some tokB)
    (hcolB : rgbAt im (vB / im.dy) (vB % im.dy) ≠ 0xFFFFFF)
    (hrunB : workIter im X Y cache sB okB = some (s1B, evsB))
    (hcolC : rgbAt im i j = 0xFFFFFF)
    (hbC : board (X + i) (Y + j) = 0xAAAAAA)
    (hcolD : rgbAt im i2 j2 = 0xFFFFFF)
    (hbD : board (X + i2) (Y + j2) ≠ 0xAAAAAA)
    (hflagD : sc2.uncert (i2 * im.dy + j2) = false)
    (hcolE : rgbAt im i3 j3 ≠ 0xFFFFFF)
    (hbE : board (X + i3) (Y + j3) = rgbAt im i3 j3) :
    Ev.painted ⟨vA / im.dy + X, vA % im.dy + Y, 0xAAAAAA, uidA, tokA⟩ okA ∈ evsA ∧
    Ev.painted ⟨vB / im.dy + X, vB % im.dy + Y,
      rgbAt im (vB / im.dy) (vB % im.dy), uidB, tokB⟩ okB ∈ evsB ∧
    checkPut im X Y board sc i j = sc ∧
    (checkPut im X Y board sc2 i2 j2).waited = sc2.waited ++ [i2 * im.dy + j2] ∧
    (checkPut im X Y board sc2 i2 j2).uncert (i2 * im.dy + j2) = true ∧
    checkPut im X Y board sc3 i3 j3 = sc3 := by
  refine ⟨?_, ?_, ?_, ?_, ?_, ?_⟩
  · have h := workIter_paint_color im X Y cache sA vA rwA uidA ruA tokA
      okA s1A evsA hwA huA hcA hrunA
    rw [hcolA] at h
    simpa using h
  · have h := workIter_paint_color im X Y cache sB vB rwB uidB ruB tokB
      okB s1B evsB hwB huB hcB hrunB
    rw [if_neg hcolB] at h
    exact h
  · simp [checkPut, hcolC, hbC]
  · rw [checkPut]
    simp only [hcolD, if_pos rfl]
    rw [if_pos ⟨fun he => hbD he.symm, hflagD⟩]
  · rw [checkPut]
    simp only [hcolD, if_pos rfl]
    rw [if_pos ⟨fun he => hbD he.symm, hflagD⟩]
    simp
  · simp [checkPut, if_neg hcolE, hbE]

/-- Witness for C1 on `wImgEx` and `wBoardEx`: offset 0 is the white
pixel (painted `0xAAAAAA`), offset 1 the black one (painted `0x000000`);
the scan skips the white pixel whose board cell already shows the
placeholder, enqueues white pixel `(1, 0)` over a black board cell, and
skips the black pixel whose board cell matches. -/
theorem white_substitution_witness :
    Ev.painted ⟨0, 0, 0xAAAAAA, 7, "t"⟩ true ∈ wOutA.2 ∧
    Ev.painted ⟨0, 1, 0, 8, "t"⟩ false ∈ wOutB.2 ∧
    checkPut wImgEx 0 0 wBoardEx scEx 0 0 = scEx ∧
    (checkPut wImgEx 0 0 wBoardEx scEx 1 0).waited = [2] ∧
    (checkPut wImgEx 0 0 wBoardEx scEx 1 0).uncert 2 = true ∧
    checkPut wImgEx 0 0 wBoardEx scEx 0 1 = scEx :=
  white_substitution wImgEx 0 0 wBoardEx wCacheEx
    wsAEx 0 [] 7 [] "t" true wOutA.1 wOutA.2
    wsBEx 1 [] 8 [] "t" false wOutB.1 wOutB.2
    scEx 0 0 scEx 1 0 scEx 0 1
    rfl rfl rfl rfl rfl
    rfl rfl rfl (by decide) rfl
    rfl rfl
    rfl (by decide) rfl
    (by decide) rfl

/-- The state left by `Reset`/`Start` satisfies the pending invariant. -/
lemma pendingInv_init : PendingInv pInit := by
  constructor
  · intro off
    simp [pInit]
  · simp [pInit]

/-- Every atomic step on the pending state preserves the invariant. -/
lemma pendingInv_step {diff : Nat → Bool} {s s1 : PState}
    (hs : PendingInv s) (h : PStep diff s s1) : PendingInv s1 := by
  obtain ⟨hiff, hnd⟩ := hs
  cases h with
  | enqueue off hdiff hflag =>
      have hnot : off ∉ s.waited ++ s.held := by
        intro hmem
        have htrue : s.uncert off = true :=
          (hiff off).mpr (by simpa [List.mem_append] using hmem)
        rw [hflag] at htrue
        exact Bool.false_ne_true htrue
      refine ⟨fun o => ?_, ?_⟩
      · show (if o = off then true else s.uncert o) = true ↔
          o ∈ s.waited ++ [off] ∨ o ∈ s.held
        by_cases ho : o = off
        · subst ho
          simp
        · rw [if_neg ho, hiff o]
          simp [List.mem_append, ho]
      · show ((s.waited ++ [off]) ++ s.held).Nodup
        have hperm : ((s.waited ++ [off]) ++ s.held).Perm
            (off :: (s.waited ++ s.held)) := by
          rw [List.append_assoc]
          exact List.perm_middle
        rw [hperm.nodup_iff]
        exact List.nodup_cons.mpr ⟨hnot, hnd⟩
  | dequeue off rest hq =>
      refine ⟨fun o => ?_, ?_⟩
      · show s.uncert o = true ↔ o ∈ rest ∨ o ∈ off :: s.held
        rw [hiff o, hq]
        simp only [List.mem_cons]
        tauto
      · show (rest ++ off :: s.held).Nodup
        have h1 : (off :: (rest ++ s.held)).Nodup := by
          rw [hq] at hnd
          exact hnd
        exact (List.perm_middle.nodup_iff).mpr h1
  | clearFlag off hh =>
      obtain ⟨hw, hh2, hdisj⟩ := List.nodup_append.mp hnd
      refine ⟨fun o => ?_, ?_⟩
      · show (if o = off then false else s.uncert o) = true ↔
          o ∈ s.waited ∨ o ∈ s.held.erase off
        by_cases ho : o = off
        · subst ho
          rw [if_pos rfl]
          constructor
          · intro hfalse
            exact absurd hfalse Bool.false_ne_true
          · intro hmem
            rcases hmem with hw2 | he
            · exact absurd hh (hdisj hw2)
            · exact absurd rfl ((hh2.mem_erase_iff.mp he).1)
        · rw [if_neg ho, hiff o, List.mem_erase_of_ne ho]
      · show (s.waited ++ s.held.erase off).Nodup
        refine List.nodup_append.mpr ⟨hw, hh2.erase off, ?_⟩
        intro a ha hae
        exact hdisj ha (List.mem_of_mem_erase hae)

/-- Every state reachable from the reset state satisfies the pending
invariant. -/
lemma pendingInv_reach {diff : Nat → Bool} {s : PState}
    (h : PReach diff pInit s) : PendingInv s := by
  induction h with
  | refl => exact pendingInv_init
  | tail _ hstep ih => exact pendingInv_step ih hstep

/-- C2: in every reachable pending state, an offset's flag is set iff
the offset is in the waiting queue or held un-cleared by a worker; the
queue (together with the held offsets) contains no duplicates; and any
step that appends an offset to the queue — necessarily `check`'s
enqueue — starts from a state where that offset's flag is unset. -/
theorem pending_flag_invariant (diff : Nat → Bool) (s s2 : PState)
    (off off2 : Nat) (h : PReach diff pInit s)
    (hstep : PStep diff s s2)
    (happ : s2.waited = s.waited ++ [off2]) :
    (s.uncert off = true ↔ (off ∈ s.waited ∨ off ∈ s.held)) ∧
    (s.waited ++ s.held).Nodup ∧
    s.uncert off2 = false := by
  obtain ⟨hiff, hnd⟩ := pendingInv_reach h
  refine ⟨hiff off, hnd, ?_⟩
  cases hstep with
  | enqueue o hdiff hflag =>
      have ho : o = off2 := by
        have h2 : s.waited ++ [o] = s.waited ++ [off2] := happ
        simpa using h2
      rw [← ho]
      exact hflag
  | dequeue o rest hq =>
      exfalso
      have h2 := congrArg List.length happ
      have h3 := congrArg List.length hq
      simp only [List.length_append, List.length_cons,
        List.length_nil] at h2 h3
      omega
  | clearFlag o hh =>
      exfalso
      have h2 := congrArg List.length happ
      simp only [List.length_append, List.length_cons,
        List.length_nil] at h2
      omega

/-- Witness for C2: the reset state, stepped by one enqueue of offset 5. -/
theorem pending_flag_invariant_witness :
    (pInit.uncert 0 = true ↔ (0 ∈ pInit.waited ∨ 0 ∈ pInit.held)) ∧
    (pInit.waited ++ pInit.held).Nodup ∧
    pInit.uncert 5 = false :=
  pending_flag_invariant (fun _ => true) pInit
    { uncert := fun o => if o = 5 then true else pInit.uncert o,
      waited := pInit.waited ++ [5], held := pInit.held }
    0 5 Relation.ReflTransGen.refl
    (PStep.enqueue pInit 5 rfl rfl) rfl

/-- Running the cancelled reconciliation loop for `n` ticks inside its
`UPDATE_INTERVAL` sleep merely counts the sleep down. -/
lemma checkTick_sleep_run (n k : Nat) :
    (checkTick true)^[n] (CheckPhase.sleeping (k + n)) =
      CheckPhase.sleeping k := by
  induction n generalizing k with
  | zero => rfl
  | succ m ih =>
      rw [Function.iterate_succ_apply]
      exact ih k

/-- C8 counterexample: cancellation firing at the start of the
`UPDATE_INTERVAL` sleep is not observed — after `UPDATE_INTERVAL` full
ticks the loop is still asleep, not exited — and a worker blocked on
`<-draw.unused` with an empty pool stays blocked under cancellation. -/
theorem cancellation_not_observed_cex :
    (checkTick true)^[UPDATE_INTERVAL] (CheckPhase.sleeping UPDATE_INTERVAL) =
      CheckPhase.sleeping 0 ∧
    CheckPhase.sleeping 0 ≠ CheckPhase.exited ∧
    workTick true true false WorkPhase.acquireWait = WorkPhase.acquireWait ∧
    WorkPhase.acquireWait ≠ WorkPhase.exited := by
  refine ⟨?_, by decide, rfl, by decide⟩
  have h := checkTick_sleep_run UPDATE_INTERVAL 0
  simpa using h

/-- C8 amended: cancellation is observed by the reconciliation loop only
in its start-of-cycle `select` — if it fires during the plain
`time.Sleep` of `UPDATE_INTERVAL` seconds, the loop finishes the sleep
(ignoring the signal tick after tick) and exits only at the next
`select`, `remaining + 2` ticks later — and by a worker only in its
dequeue `select`; a worker blocked acquiring a credential from an empty
pool does not observe cancellation at all. -/
theorem cancellation_observation_points (k : Nat) (qn pn : Bool) :
    checkTick true CheckPhase.selectWait = CheckPhase.exited ∧
    checkTick true (CheckPhase.sleeping (k + 1)) = CheckPhase.sleeping k ∧
    checkTick true (CheckPhase.sleeping 0) = CheckPhase.selectWait ∧
    (checkTick true)^[k + 2] (CheckPhase.sleeping k) = CheckPhase.exited ∧
    workTick true qn pn WorkPhase.dequeueWait = WorkPhase.exited ∧
    workTick true qn false WorkPhase.acquireWait = WorkPhase.acquireWait ∧
    workTick false qn false WorkPhase.acquireWait = WorkPhase.acquireWait := by
  refine ⟨rfl, rfl, rfl, ?_, rfl, rfl, rfl⟩
  have he : k + 2 = 2 + k := by omega
  rw [he, Function.iterate_add_apply]
  have h2 := checkTick_sleep_run k 0
  rw [Nat.zero_add] at h2
  rw [h2]
  rfl

end Paint
